import Mathlib

/-!
Shallow embedding of the population-table pipeline of
src/tp_population_visualization.py (pandas/numpy variant) and
src/tp_population_visualization2.py (polars/JAX variant).

A table is a list of rows of world_population.csv after the column-name
normalization of step 1.  Numeric columns are modelled as exact rationals;
a nullable float column is an Option value, with none standing for a
missing (null or NaN) entry.  The transcendental np.log10 is modelled by
an abstract parameter lg applied to density + 1, so that every statement
about Log_Density is structural (which value the column is computed from);
concrete evaluations instantiate lg with the identity.
-/

namespace PopGeo

/-- One row of the table: country name, continent, three-letter code CCA3,
the eight population snapshot columns, Area_(km²), the nullable
Density_(per_km²) column and the derived Log_Density column. -/
structure Record where
  country : String
  continent : String
  cca3 : String
  p1970 : ℚ
  p1980 : ℚ
  p1990 : ℚ
  p2000 : ℚ
  p2010 : ℚ
  p2015 : ℚ
  p2020 : ℚ
  p2022 : ℚ
  area : ℚ
  density : Option ℚ
  logDensity : Option ℚ
deriving DecidableEq

abbrev Table := List Record

/-- The fixed set of snapshot years. -/
inductive Year where
  | y1970
  | y1980
  | y1990
  | y2000
  | y2010
  | y2015
  | y2020
  | y2022
deriving DecidableEq

/-- The population column of a given snapshot year. -/
def pop (y : Year) (r : Record) : ℚ :=
  match y with
  | .y1970 => r.p1970
  | .y1980 => r.p1980
  | .y1990 => r.p1990
  | .y2000 => r.p2000
  | .y2010 => r.p2010
  | .y2015 => r.p2015
  | .y2020 => r.p2020
  | .y2022 => r.p2022

/-- Per-row effect of the density backfill:
df["Density_(per_km²)"] = df["Density_(per_km²)"].fillna(df["2022_Population"] / df["Area_(km²)"])
(tp_population_visualization.py lines 21-23); the polars
when/is_null/then/otherwise expression of tp_population_visualization2.py
lines 23-28 performs the same per-row update. -/
def backfillRec (r : Record) : Record :=
  match r.density with
  | none => { r with density := some (r.p2022 / r.area) }
  | some _ => r

/-- BackfillDensity applied to the whole table. -/
def fillDensity (t : Table) : Table :=
  t.map backfillRec

/-- DeriveLogDensity:
df["Log_Density"] = np.log10(df["Density_(per_km²)"] + 1)
(tp_population_visualization.py line 26, tp_population_visualization2.py
lines 31-33 and 70-72).  A missing density propagates to a missing
Log_Density, as NaN does under np.log10 and null does under polars. -/
def logStep (lg : ℚ → ℚ) (t : Table) : Table :=
  t.map fun r => { r with logDensity := r.density.map fun d => lg (d + 1) }

/-- df["CCA3"] == "MAR" -/
def isMAR (r : Record) : Bool :=
  r.cca3 = "MAR"

/-- df["CCA3"] == "ESH" -/
def isESH (r : Record) : Bool :=
  r.cca3 = "ESH"

/-- morocco_mask = (df["CCA3"] == "MAR") | (df["CCA3"] == "ESH") -/
def moroccoMask (r : Record) : Bool :=
  isMAR r || isESH r

/-- One entry of morocco_totals: the sum of a numeric column over the rows
selected by morocco_mask (tp_population_visualization.py line 37,
tp_population_visualization2.py line 44). -/
def totalOf (f : Record → ℚ) (t : Table) : ℚ :=
  ((t.filter moroccoMask).map f).sum

/-- df.loc[df["CCA3"] == "MAR", pop_cols] = morocco_totals.values
(tp_population_visualization.py line 40): every row whose code is MAR gets
all eight population columns and the area column overwritten with the
totals computed from the table t0 captured before the update. -/
def updPops (t0 : Table) (r : Record) : Record :=
  if isMAR r then
    { r with
      p1970 := totalOf (pop .y1970) t0
      p1980 := totalOf (pop .y1980) t0
      p1990 := totalOf (pop .y1990) t0
      p2000 := totalOf (pop .y2000) t0
      p2010 := totalOf (pop .y2010) t0
      p2015 := totalOf (pop .y2015) t0
      p2020 := totalOf (pop .y2020) t0
      p2022 := totalOf (pop .y2022) t0
      area := totalOf (fun s => s.area) t0 }
  else r

/-- df.loc[df["CCA3"] == "MAR", "Density_(per_km²)"] =
morocco_totals["2022_Population"] / morocco_totals["Area_(km²)"]
(tp_population_visualization.py lines 43-45). -/
def updDensity (t0 : Table) (r : Record) : Record :=
  if isMAR r then
    { r with density := some (totalOf (pop .y2022) t0 / totalOf (fun s => s.area) t0) }
  else r

/-- df = df[df["CCA3"] != "ESH"] (tp_population_visualization.py line 48,
tp_population_visualization2.py line 67). -/
def dropESH (t : Table) : Table :=
  t.filter fun r => !(isESH r)

/-- The territory-merge block of tp_population_visualization.py lines
29-48: compute the totals over the masked rows, overwrite the MAR row
population and area columns, recompute the MAR density from the totals,
and remove the ESH row. -/
def mergeTerritories (t : Table) : Table :=
  dropESH (((t.map (updPops t)).map (updDensity t)))

/-- One iteration of the column-update loop of
tp_population_visualization2.py lines 47-53:
pl.when(pl.col("CCA3") == "MAR").then(pl.lit(v)).otherwise(pl.col(c)).alias(c)
for a single population or area column, where v is the corresponding entry
of the morocco_totals frame captured at line 44.  The loop is unrolled
below, one definition per column of pop_cols, in the loop order. -/
def setP2022 (v : ℚ) (r : Record) : Record :=
  if isMAR r then { r with p2022 := v } else r

def setP2020 (v : ℚ) (r : Record) : Record :=
  if isMAR r then { r with p2020 := v } else r

def setP2015 (v : ℚ) (r : Record) : Record :=
  if isMAR r then { r with p2015 := v } else r

def setP2010 (v : ℚ) (r : Record) : Record :=
  if isMAR r then { r with p2010 := v } else r

def setP2000 (v : ℚ) (r : Record) : Record :=
  if isMAR r then { r with p2000 := v } else r

def setP1990 (v : ℚ) (r : Record) : Record :=
  if isMAR r then { r with p1990 := v } else r

def setP1980 (v : ℚ) (r : Record) : Record :=
  if isMAR r then { r with p1980 := v } else r

def setP1970 (v : ℚ) (r : Record) : Record :=
  if isMAR r then { r with p1970 := v } else r

def setArea (v : ℚ) (r : Record) : Record :=
  if isMAR r then { r with area := v } else r

/-- tp_population_visualization2.py lines 59-64:
pl.when(pl.col("CCA3") == "MAR").then(pl.lit(morocco_pop / morocco_area))
.otherwise(pl.col("Density_(per_km²)")).alias("Density_(per_km²)") -/
def setDensity (v : ℚ) (r : Record) : Record :=
  if isMAR r then { r with density := some v } else r

/-- The territory-merge block of tp_population_visualization2.py lines
36-67: morocco_totals is computed once from the incoming frame (line 44),
then the with_columns loop overwrites the pop_cols one by one in the order
2022, 2020, 2015, 2010, 2000, 1990, 1980, 1970, area.  Line 61 then
divides the two plain Python scalars morocco_pop / morocco_area; when the
summed masked area is zero (for instance when the table holds no MAR and
no ESH row, so both totals are 0) this raises ZeroDivisionError and
aborts the script, modelled as none.  Otherwise the density column is
overwritten from the quotient and the ESH row is filtered out. -/
def mergeTerritories2 (t : Table) : Option Table :=
  if totalOf (fun s => s.area) t = 0 then none
  else
    some (dropESH
      (((((((((((t.map (setP2022 (totalOf (pop .y2022) t))).map
        (setP2020 (totalOf (pop .y2020) t))).map
        (setP2015 (totalOf (pop .y2015) t))).map
        (setP2010 (totalOf (pop .y2010) t))).map
        (setP2000 (totalOf (pop .y2000) t))).map
        (setP1990 (totalOf (pop .y1990) t))).map
        (setP1980 (totalOf (pop .y1980) t))).map
        (setP1970 (totalOf (pop .y1970) t))).map
        (setArea (totalOf (fun s => s.area) t))).map
        (setDensity (totalOf (pop .y2022) t / totalOf (fun s => s.area) t)))))

/-- The data-preparation pipeline of tp_population_visualization.py
(lines 15-53): backfill density (21-23), derive Log_Density (26), merge
Western Sahara into Morocco (29-48), then a second density backfill
(51-53).  Log_Density is not re-derived after the merge in this variant. -/
def pipeline1 (lg : ℚ → ℚ) (t : Table) : Table :=
  fillDensity (mergeTerritories (logStep lg (fillDensity t)))

/-- The data-preparation pipeline of tp_population_visualization2.py
(lines 17-72): backfill density (23-28), derive Log_Density (31-33),
merge Western Sahara into Morocco (36-67, fallible), then re-derive
Log_Density (70-72); a none result models the script aborting with
ZeroDivisionError inside the merge block. -/
def pipeline2 (lg : ℚ → ℚ) (t : Table) : Option Table :=
  (mergeTerritories2 (logStep lg (fillDensity t))).map (logStep lg)

/-- total_population_2022 = np.sum(df["2022_Population"])
(tp_population_visualization.py line 66), generalized to any snapshot
year. -/
def worldTotal (y : Year) (t : Table) : ℚ :=
  (t.map (pop y)).sum

/-- The distinct continents of the table, in order of first appearance,
as grouped by df.groupby("Continent"). -/
def continents (t : Table) : List String :=
  (t.map (fun r => r.continent)).dedup

/-- One entry of population_by_continent =
df.groupby("Continent")["2022_Population"].sum()
(tp_population_visualization.py line 75, tp_population_visualization2.py
lines 98-100), generalized to any snapshot year. -/
def byContinent (y : Year) (c : String) (t : Table) : ℚ :=
  ((t.filter fun r => r.continent = c).map (pop y)).sum

/-- TimeSeries(country): country_data = df[df["Country"] == name],
population_values = the eight population columns of its first row in
year-ascending order, paired with the years array
[1970, 1980, 1990, 2000, 2010, 2015, 2020, 2022]
(tp_population_visualization.py lines 120-130,
tp_population_visualization2.py lines 151-165).  The .values[0] indexing
fails when no row matches, modelled as none. -/
def timeSeries (name : String) (t : Table) : Option (List (ℚ × ℚ)) :=
  match t.filter (fun r => r.country = name) with
  | [] => none
  | r :: _ =>
    some [(1970, r.p1970), (1980, r.p1980), (1990, r.p1990), (2000, r.p2000),
          (2010, r.p2010), (2015, r.p2015), (2020, r.p2020), (2022, r.p2022)]

/-- A record with its Log_Density column dropped, used to compare the two
pipeline variants on every other column. -/
def stripLog (r : Record) : Record :=
  { r with logDensity := none }

/-- Concrete stand-in for log10 used when evaluating the pipelines on
concrete tables. -/
def lgId : ℚ → ℚ :=
  fun q => q

/-- Anonymous-constructor shorthand for building concrete rows. -/
def mkRec (name cont code : String) (a70 a80 a90 a00 a10 a15 a20 a22 ar : ℚ)
    (d lgd : Option ℚ) : Record :=
  ⟨name, cont, code, a70, a80, a90, a00, a10, a15, a20, a22, ar, d, lgd⟩

/-- The Morocco row of the concrete merge scenario: area 446550,
2022 population 37000000, density initially missing. -/
def rMar : Record :=
  mkRec "Morocco" "Africa" "MAR" 15000000 19000000 24000000 28000000
    32000000 34000000 36000000 37000000 446550 none none

/-- The Western Sahara row of the concrete merge scenario: area 266000,
2022 population 600000, density initially missing. -/
def rEsh : Record :=
  mkRec "Western Sahara" "Africa" "ESH" 76000 116000 178000 270000
    413000 491000 556000 600000 266000 none none

/-- The two-row table of the concrete merge scenario. -/
def Tmar : Table := [rMar, rEsh]

/-- The Morocco and Western Sahara rows as they stand right before the
merge block, after backfill and log derivation with lgId. -/
def rMarPre : Record :=
  mkRec "Morocco" "Africa" "MAR" 15000000 19000000 24000000 28000000
    32000000 34000000 36000000 37000000 446550
    (some (37000000 / 446550)) (some (37000000 / 446550 + 1))

def rEshPre : Record :=
  mkRec "Western Sahara" "Africa" "ESH" 76000 116000 178000 270000
    413000 491000 556000 600000 266000
    (some (600000 / 266000)) (some (600000 / 266000 + 1))

/-- A table containing one MAR row and no ESH row, on which the merge has
no row to absorb. -/
def TnoEsh : Table := [rMarPre]

/-- Small rows whose codes are not merge targets, used by the aggregate
and frame witnesses. -/
def rAla : Record :=
  mkRec "Aland" "Europe" "ALA" 1 2 3 4 5 6 7 5 10 (some 2) none

def rBrn : Record :=
  mkRec "Brunei" "Asia" "BRN" 2 3 4 5 6 7 8 9 20 none none

def rTcd : Record :=
  mkRec "Chad" "Africa" "TCD" 3 4 5 6 7 8 9 5 30 (some 1) none

/-- A table holding no MAR row and no ESH row: the merge has nothing to
match, and the summed masked area is zero. -/
def Tplain : Table := [rAla, rBrn, rTcd]

/-- Two rows sharing the same country name, with different populations. -/
def rDup1 : Record :=
  mkRec "Dupland" "Asia" "DP1" 10 11 12 13 14 15 16 17 40 (some 1) none

def rDup2 : Record :=
  mkRec "Dupland" "Asia" "DP2" 20 21 22 23 24 25 26 27 50 (some 2) none

/-- Table with a duplicated country name; the first match is rDup1. -/
def Tdup : Table := [rBrn, rDup1, rDup2]

/-- A row whose Log_Density is already derived with respect to lgId. -/
def rDerived : Record :=
  mkRec "Aland" "Europe" "ALA" 1 2 3 4 5 6 7 5 10 (some 2) (some 3)

/-- A table on which DeriveLogDensity (with lgId) has already been run. -/
def Tderived : Table := [rDerived]

/-! ## Helper lemmas -/

/-- A predicate holding for exactly one element of a list selects exactly
the one known member. -/
theorem filter_eq_singleton_of_countP {α : Type} {p : α → Bool} {l : List α} {a : α}
    (ha : a ∈ l) (hp : p a = true) (h1 : l.countP p = 1) :
    l.filter p = [a] := by
  have hlen : (l.filter p).length = 1 := by
    rw [← List.countP_eq_length_filter]
    exact h1
  obtain ⟨b, hb⟩ := List.length_eq_one.mp hlen
  have hmem : a ∈ l.filter p := List.mem_filter.mpr ⟨ha, hp⟩
  rw [hb] at hmem
  simp only [List.mem_singleton] at hmem
  rw [hb, hmem]

/-- The sum of a column over rows matching a disjunction of two mutually
exclusive predicates splits into the two sums. -/
theorem sum_map_filter_or {α : Type} (p q : α → Bool) (f : α → ℚ) (l : List α)
    (hpq : ∀ a, ¬(p a = true ∧ q a = true)) :
    ((l.filter fun a => p a || q a).map f).sum
      = ((l.filter p).map f).sum + ((l.filter q).map f).sum := by
  induction l with
  | nil => simp
  | cons a l ih =>
    by_cases hp : p a = true
    · have hq : q a = false := by
        rcases Bool.eq_false_or_eq_true (q a) with h | h
        · exact absurd ⟨hp, h⟩ (hpq a)
        · exact h
      simp only [List.filter_cons, hp, hq, Bool.or_false, Bool.true_or, if_true, if_false,
        Bool.false_eq_true, List.map_cons, List.sum_cons, ih]
      ring
    · have hp' : p a = false := eq_false_of_ne_true hp
      by_cases hq : q a = true
      · simp only [List.filter_cons, hp', hq, Bool.false_or, Bool.true_or, if_true, if_false,
          Bool.false_eq_true, List.map_cons, List.sum_cons, ih]
        ring
      · have hq' : q a = false := eq_false_of_ne_true hq
        simp only [List.filter_cons, hp', hq', Bool.false_or, if_false,
          Bool.false_eq_true, ih]

/-- Summing a column over the rows matching a predicate and over the rows
refuting it recovers the column sum over the whole table. -/
theorem sum_map_filter_add_not {α : Type} (p : α → Bool) (f : α → ℚ) (l : List α) :
    ((l.filter p).map f).sum + ((l.filter fun a => !(p a)).map f).sum = (l.map f).sum := by
  induction l with
  | nil => simp
  | cons a l ih =>
    by_cases hp : p a = true
    · simp only [List.filter_cons, hp, Bool.not_true, if_true, if_false,
        Bool.false_eq_true, List.map_cons, List.sum_cons]
      rw [add_assoc, ih]
    · have hp' : p a = false := eq_false_of_ne_true hp
      simp only [List.filter_cons, hp', Bool.not_false, if_true, if_false,
        Bool.false_eq_true, List.map_cons, List.sum_cons]
      rw [← add_assoc, add_comm (((l.filter p).map f).sum) (f a), add_assoc, ih]

/-- The two merge targets are mutually exclusive: no row codes both MAR
and ESH. -/
theorem isMAR_isESH_exclusive (r : Record) : ¬(isMAR r = true ∧ isESH r = true) := by
  rintro ⟨h1, h2⟩
  simp only [isMAR, decide_eq_true_eq] at h1
  simp only [isESH, decide_eq_true_eq] at h2
  rw [h1] at h2
  exact absurd h2 (by decide)

/-- With exactly one MAR row and exactly one ESH row, each morocco_totals
entry is the sum of the two rows of that column. -/
theorem totalOf_eq_add {t : Table} {rM rE : Record} (f : Record → ℚ)
    (hM : rM ∈ t) (hMc : isMAR rM = true) (hE : rE ∈ t) (hEc : isESH rE = true)
    (h1 : t.countP isMAR = 1) (h2 : t.countP isESH = 1) :
    totalOf f t = f rM + f rE := by
  unfold totalOf moroccoMask
  rw [sum_map_filter_or isMAR isESH f t isMAR_isESH_exclusive,
    filter_eq_singleton_of_countP hM hMc h1,
    filter_eq_singleton_of_countP hE hEc h2]
  simp

/-- The merge updates change no identification column. -/
theorem mergeUpd_cca3 (t0 : Table) (r : Record) :
    (updDensity t0 (updPops t0 r)).cca3 = r.cca3 := by
  by_cases h : r.cca3 = "MAR" <;> simp [updPops, updDensity, isMAR, h]

end PopGeo

namespace PopGeo

/-! ## Claim C1 -/

/-- Claim C1: on any table with exactly one MAR row and exactly one ESH
row, MergeTerritories shrinks the table by exactly one row, and the
surviving MAR row carries, for every snapshot year, the sum of the two
pre-merge populations, the summed area, and a density equal to the summed
2022 population divided by the summed area. -/
theorem mergeTerritories_spec (t : Table) (rM rE : Record)
    (hM : rM ∈ t) (hMc : isMAR rM = true) (hE : rE ∈ t) (hEc : isESH rE = true)
    (h1 : t.countP isMAR = 1) (h2 : t.countP isESH = 1) :
    (mergeTerritories t).length + 1 = t.length
    ∧ updDensity t (updPops t rM) ∈ mergeTerritories t
    ∧ ∀ r ∈ mergeTerritories t, isMAR r = true →
        (∀ y : Year, pop y r = pop y rM + pop y rE)
        ∧ r.area = rM.area + rE.area
        ∧ r.density = some ((rM.p2022 + rE.p2022) / (rM.area + rE.area)) := by
  have htot : ∀ f : Record → ℚ, totalOf f t = f rM + f rE := fun f =>
    totalOf_eq_add f hM hMc hE hEc h1 h2
  have hMcca : rM.cca3 = "MAR" := by
    simpa [isMAR] using hMc
  have hupd_cca3 : ∀ r : Record, (updDensity t (updPops t r)).cca3 = r.cca3 :=
    mergeUpd_cca3 t
  have hmerge : mergeTerritories t
      = (t.map fun r => updDensity t (updPops t r)).filter fun r => !(isESH r) := by
    simp [mergeTerritories, dropESH, List.map_map, Function.comp_def]
  refine ⟨?_, ?_, ?_⟩
  · rw [hmerge, ← List.countP_eq_length_filter, List.countP_map]
    have hc : (t.countP fun r => !(isESH (updDensity t (updPops t r))))
        = t.countP fun r => !(isESH r) := by
      apply List.countP_congr
      intro r _
      simp [isESH, hupd_cca3 r]
    have hsplit : t.length = t.countP isESH + t.countP fun r => !(isESH r) := by
      have := List.length_eq_countP_add_countP (p := isESH) (l := t)
      simpa using this
    have : (t.countP fun r => !(isESH r)) + 1 = t.length := by
      omega
    simpa [Function.comp_def, hc] using this
  · rw [hmerge]
    apply List.mem_filter.mpr
    refine ⟨List.mem_map_of_mem _ hM, ?_⟩
    simp [isESH, hupd_cca3 rM, hMcca]
  · intro r hr hrM
    rw [hmerge] at hr
    obtain ⟨x, hx, hxr⟩ := List.mem_map.mp (List.mem_filter.mp hr).1
    have hxMAR : isMAR x = true := by
      have : x.cca3 = "MAR" := by
        have := hupd_cca3 x
        rw [hxr] at this
        rw [← this]
        simpa [isMAR] using hrM
      simpa [isMAR] using this
    have hxeq : x = rM := by
      have hfil := filter_eq_singleton_of_countP hM hMc h1
      have : x ∈ t.filter isMAR := List.mem_filter.mpr ⟨hx, hxMAR⟩
      rw [hfil] at this
      simpa using this
    subst hxeq
    subst hxr
    have hx2022 := htot (pop .y2022)
    have harea := htot (fun s => s.area)
    refine ⟨?_, ?_, ?_⟩
    · intro y
      cases y <;>
        simp [updPops, updDensity, isMAR, hMcca, pop, htot]
    · simp [updPops, updDensity, isMAR, hMcca, harea]
    · simp [updPops, updDensity, isMAR, hMcca, hx2022, harea, pop]

/-- Witness for C1: the concrete scenario of the claim.  Merging the MAR
row (area 446550, 2022 population 37000000) with the ESH row (area
266000, 2022 population 600000) leaves a single MAR row with area 712550,
2022 population 37600000, and density 37600000 / 712550. -/
theorem mergeTerritories_spec_witness :
    (mergeTerritories Tmar).length + 1 = Tmar.length
    ∧ updDensity Tmar (updPops Tmar rMar) ∈ mergeTerritories Tmar
    ∧ pop .y2022 (updDensity Tmar (updPops Tmar rMar)) = 37000000 + 600000
    ∧ (updDensity Tmar (updPops Tmar rMar)).area = 446550 + 266000
    ∧ (updDensity Tmar (updPops Tmar rMar)).density
        = some ((37000000 + 600000) / (446550 + 266000)) := by
  have h := mergeTerritories_spec Tmar rMar rEsh
    (by simp [Tmar]) (by decide) (by simp [Tmar]) (by decide)
    (by decide) (by decide)
  have hmem := h.2.1
  have h3 := h.2.2 _ hmem (by decide)
  refine ⟨h.1, hmem, ?_, ?_, ?_⟩
  · rw [h3.1 .y2022]
    simp [rMar, rEsh, mkRec, pop]
  · rw [h3.2.1]
    simp [rMar, rEsh, mkRec]
  · rw [h3.2.2]
    simp [rMar, rEsh, mkRec]

end PopGeo

namespace PopGeo

/-! ## Claim C3 -/

/-- Counterexample to claim C3: on a table holding one MAR row and no ESH
row the source merge does not fail; it silently returns a table of the
same size whose single row is byte-for-byte the input row (the totals
sum over the MAR row alone, and the recomputed density coincides with the
backfilled one). -/
theorem mergeTerritories_no_failure_counterexample :
    (mergeTerritories TnoEsh).length = TnoEsh.length
    ∧ mergeTerritories TnoEsh = [rMarPre] := by
  have h : mergeTerritories TnoEsh = [rMarPre] := by
    simp [mergeTerritories, dropESH, updPops, updDensity, totalOf, moroccoMask,
      isMAR, isESH, pop, TnoEsh, rMarPre, mkRec, List.filter_cons]
  exact ⟨by rw [h]; rfl, h⟩

/-- Claim C3, amended: the source merge performs no precondition check
and never fails.  In particular, when the absorbed code ESH is absent
from a table with exactly one MAR row, the merge is a silent no-op merge:
the table size is unchanged, and the MAR row keeps its populations and
area (each total sums over the MAR row alone) while its density is
recomputed as its own 2022 population over its own area. -/
theorem mergeTerritories_no_validation (t : Table) (rM : Record)
    (hM : rM ∈ t) (hMc : isMAR rM = true)
    (h1 : t.countP isMAR = 1) (h0 : t.countP isESH = 0) :
    (mergeTerritories t).length = t.length
    ∧ updDensity t (updPops t rM) ∈ mergeTerritories t
    ∧ ∀ r ∈ mergeTerritories t, isMAR r = true →
        (∀ y : Year, pop y r = pop y rM)
        ∧ r.area = rM.area
        ∧ r.density = some (rM.p2022 / rM.area) := by
  have hEnil : t.filter isESH = [] := by
    have : (t.filter isESH).length = 0 := by
      rw [← List.countP_eq_length_filter]
      exact h0
    exact List.length_eq_zero.mp this
  have htot : ∀ f : Record → ℚ, totalOf f t = f rM := by
    intro f
    unfold totalOf moroccoMask
    rw [sum_map_filter_or isMAR isESH f t isMAR_isESH_exclusive,
      filter_eq_singleton_of_countP hM hMc h1, hEnil]
    simp
  have hMcca : rM.cca3 = "MAR" := by
    simpa [isMAR] using hMc
  have hupd_cca3 : ∀ r : Record, (updDensity t (updPops t r)).cca3 = r.cca3 :=
    mergeUpd_cca3 t
  have hmerge : mergeTerritories t
      = (t.map fun r => updDensity t (updPops t r)).filter fun r => !(isESH r) := by
    simp [mergeTerritories, dropESH, List.map_map, Function.comp_def]
  refine ⟨?_, ?_, ?_⟩
  · rw [hmerge, ← List.countP_eq_length_filter, List.countP_map]
    have hc : (t.countP fun r => !(isESH (updDensity t (updPops t r))))
        = t.countP fun r => !(isESH r) := by
      apply List.countP_congr
      intro r _
      simp [isESH, hupd_cca3 r]
    have hsplit : t.length = t.countP isESH + t.countP fun r => !(isESH r) := by
      have := List.length_eq_countP_add_countP (p := isESH) (l := t)
      simpa using this
    have : (t.countP fun r => !(isESH r)) = t.length := by
      omega
    simpa [Function.comp_def, hc] using this
  · rw [hmerge]
    apply List.mem_filter.mpr
    refine ⟨List.mem_map_of_mem _ hM, ?_⟩
    simp [isESH, hupd_cca3 rM, hMcca]
  · intro r hr hrM
    rw [hmerge] at hr
    obtain ⟨x, hx, hxr⟩ := List.mem_map.mp (List.mem_filter.mp hr).1
    have hxMAR : isMAR x = true := by
      have : x.cca3 = "MAR" := by
        have := hupd_cca3 x
        rw [hxr] at this
        rw [← this]
        simpa [isMAR] using hrM
      simpa [isMAR] using this
    have hxeq : x = rM := by
      have hfil := filter_eq_singleton_of_countP hM hMc h1
      have : x ∈ t.filter isMAR := List.mem_filter.mpr ⟨hx, hxMAR⟩
      rw [hfil] at this
      simpa using this
    subst hxeq
    subst hxr
    refine ⟨?_, ?_, ?_⟩
    · intro y
      cases y <;>
        simp [updPops, updDensity, isMAR, hMcca, pop, htot]
    · simp [updPops, updDensity, isMAR, hMcca, htot]
    · simp [updPops, updDensity, isMAR, hMcca, htot (pop .y2022),
        htot (fun s => s.area), pop]

/-- Witness for the amended C3 at the concrete one-row table: the merge
with a missing ESH row returns unchanged size and an unchanged MAR row
with recomputed density. -/
theorem mergeTerritories_no_validation_witness :
    (mergeTerritories TnoEsh).length = TnoEsh.length
    ∧ (updDensity TnoEsh (updPops TnoEsh rMarPre)).area = rMarPre.area
    ∧ (updDensity TnoEsh (updPops TnoEsh rMarPre)).density
        = some (rMarPre.p2022 / rMarPre.area) := by
  have h := mergeTerritories_no_validation TnoEsh rMarPre
    (by simp [TnoEsh]) (by decide) (by decide) (by decide)
  have h3 := h.2.2 _ h.2.1 (by decide)
  exact ⟨h.1, h3.2.1, h3.2.2⟩

end PopGeo

namespace PopGeo

/-! ## Claim C6 -/

/-- Claim C6: after BackfillDensity every row has a non-null density; a
row whose density was absent gets exactly population 2022 over area, and
a row whose density was present is left entirely unchanged. -/
theorem fillDensity_spec (t : Table) :
    (∀ r ∈ fillDensity t, r.density ≠ none)
    ∧ (fillDensity t).length = t.length
    ∧ ∀ i (hi : i < t.length) (hi' : i < (fillDensity t).length),
        ((t.get ⟨i, hi⟩).density = none →
          (fillDensity t).get ⟨i, hi'⟩
            = { t.get ⟨i, hi⟩ with
                density := some ((t.get ⟨i, hi⟩).p2022 / (t.get ⟨i, hi⟩).area) })
        ∧ ∀ d, (t.get ⟨i, hi⟩).density = some d →
            (fillDensity t).get ⟨i, hi'⟩ = t.get ⟨i, hi⟩ := by
  refine ⟨?_, ?_, ?_⟩
  · intro r hr
    obtain ⟨x, _, hxr⟩ := List.mem_map.mp hr
    subst hxr
    unfold backfillRec
    cases h : x.density <;> simp [h]
  · simp [fillDensity]
  · intro i hi hi'
    have hget : (fillDensity t).get ⟨i, hi'⟩ = backfillRec (t.get ⟨i, hi⟩) := by
      simp [fillDensity]
    constructor
    · intro hnone
      rw [hget]
      unfold backfillRec
      rw [hnone]
    · intro d hd
      rw [hget]
      unfold backfillRec
      rw [hd]

/-- Witness for C6 at a two-row table whose first row lacks a density and
whose second row carries one: the first is backfilled to population over
area, the second is untouched. -/
theorem fillDensity_spec_witness :
    (fillDensity [rBrn, rAla]).get ⟨0, by simp [fillDensity]⟩
      = { rBrn with density := some (rBrn.p2022 / rBrn.area) }
    ∧ (fillDensity [rBrn, rAla]).get ⟨1, by simp [fillDensity]⟩ = rAla := by
  have h := fillDensity_spec [rBrn, rAla]
  constructor
  · exact (h.2.2 0 (by simp) (by simp [fillDensity])).1 (by decide)
  · exact (h.2.2 1 (by simp) (by simp [fillDensity])).2 2 (by decide)

/-! ## Claim C8 -/

/-- Claim C8: DeriveLogDensity is idempotent; on a table whose Log_Density
column already equals the log of density plus one, re-running the step
changes nothing. -/
theorem logStep_idempotent (lg : ℚ → ℚ) (t : Table)
    (h : ∀ r ∈ t, r.logDensity = r.density.map fun d => lg (d + 1)) :
    logStep lg t = t := by
  unfold logStep
  conv_rhs => rw [← List.map_id t]
  apply List.map_congr_left
  intro r hr
  have hr' := h r hr
  cases r
  simp only at hr'
  simp [hr']

/-- Witness for C8: on the concrete already-derived table, re-running the
derivation with lgId returns the same table. -/
theorem logStep_idempotent_witness :
    logStep lgId Tderived = Tderived :=
  logStep_idempotent lgId Tderived (by
    intro r hr
    simp only [Tderived, List.mem_singleton] at hr
    subst hr
    simp [rDerived, mkRec, lgId]
    norm_num)

/-! ## Claim C9 -/

/-- Claim C9: when some row matches the queried country name, TimeSeries
returns exactly eight year-population pairs, one per snapshot year in
ascending year order, taken from the first matching row. -/
theorem timeSeries_spec (name : String) (t : Table) (r : Record) (rest : Table)
    (h : t.filter (fun x => x.country = name) = r :: rest) :
    timeSeries name t
      = some [(1970, r.p1970), (1980, r.p1980), (1990, r.p1990), (2000, r.p2000),
              (2010, r.p2010), (2015, r.p2015), (2020, r.p2020), (2022, r.p2022)]
    ∧ (∀ l, timeSeries name t = some l →
        l.length = 8 ∧ (l.map Prod.fst).Chain' (· < ·)) := by
  have hts : timeSeries name t
      = some [(1970, r.p1970), (1980, r.p1980), (1990, r.p1990), (2000, r.p2000),
              (2010, r.p2010), (2015, r.p2015), (2020, r.p2020), (2022, r.p2022)] := by
    unfold timeSeries
    rw [h]
  refine ⟨hts, ?_⟩
  intro l hl
  rw [hts] at hl
  have : l = [(1970, r.p1970), (1980, r.p1980), (1990, r.p1990), (2000, r.p2000),
      (2010, r.p2010), (2015, r.p2015), (2020, r.p2020), (2022, r.p2022)] := by
    simpa using hl.symm
  subst this
  constructor
  · rfl
  · simp only [List.map_cons, List.map_nil]
    norm_num

/-- Witness for C9 on the concrete table with a duplicated country name:
the series is read off the first matching row rDup1, not the later
rDup2. -/
theorem timeSeries_spec_witness :
    timeSeries "Dupland" Tdup
      = some [(1970, rDup1.p1970), (1980, rDup1.p1980), (1990, rDup1.p1990),
              (2000, rDup1.p2000), (2010, rDup1.p2010), (2015, rDup1.p2015),
              (2020, rDup1.p2020), (2022, rDup1.p2022)]
    ∧ (List.map Prod.fst [((1970 : ℚ), rDup1.p1970), (1980, rDup1.p1980),
        (1990, rDup1.p1990), (2000, rDup1.p2000), (2010, rDup1.p2010),
        (2015, rDup1.p2015), (2020, rDup1.p2020), (2022, rDup1.p2022)]).Chain'
        (· < ·) := by
  have h := timeSeries_spec "Dupland" Tdup rDup1 [rDup2]
    (by simp [Tdup, rBrn, rDup1, rDup2, mkRec, List.filter_cons])
  refine ⟨h.1, ?_⟩
  simp only [List.map_cons, List.map_nil]
  norm_num

end PopGeo

namespace PopGeo

/-! ## Claims C7 and C2: relating the two pipeline variants -/

/-- The unrolled polars column-update loop has, row by row, the same
effect as the two pandas .loc assignments. -/
theorem mergeSetters_eq (t0 : Table) (r : Record) :
    setDensity (totalOf (pop .y2022) t0 / totalOf (fun s => s.area) t0)
      (setArea (totalOf (fun s => s.area) t0)
        (setP1970 (totalOf (pop .y1970) t0)
          (setP1980 (totalOf (pop .y1980) t0)
            (setP1990 (totalOf (pop .y1990) t0)
              (setP2000 (totalOf (pop .y2000) t0)
                (setP2010 (totalOf (pop .y2010) t0)
                  (setP2015 (totalOf (pop .y2015) t0)
                    (setP2020 (totalOf (pop .y2020) t0)
                      (setP2022 (totalOf (pop .y2022) t0) r)))))))))
      = updDensity t0 (updPops t0 r) := by
  obtain ⟨c1, c2, c3, q1, q2, q3, q4, q5, q6, q7, q8, ar, de, ld⟩ := r
  by_cases h : c3 = "MAR"
  · subst h
    rfl
  · simp [setP2022, setP2020, setP2015, setP2010, setP2000, setP1990, setP1980,
      setP1970, setArea, setDensity, updPops, updDensity, isMAR, h]

set_option maxHeartbeats 1000000

/-- When the summed masked area is nonzero the polars merge block
succeeds and computes the same table as the pandas merge block. -/
theorem mergeTerritories2_eq (t : Table)
    (h : totalOf (fun s => s.area) t ≠ 0) :
    mergeTerritories2 t = some (mergeTerritories t) := by
  unfold mergeTerritories2 mergeTerritories
  rw [if_neg h]
  refine congrArg some ?_
  simp only [List.map_map]
  refine congrArg dropESH ?_
  apply List.map_congr_left
  intro r _
  simp only [Function.comp_apply]
  exact mergeSetters_eq t r

set_option maxHeartbeats 200000

/-- The backfill always produces a present density. -/
theorem backfillRec_density_ne_none (r : Record) :
    (backfillRec r).density ≠ none := by
  cases h : r.density <;> simp [backfillRec, h]

/-- Backfilling a table whose densities are all present is a no-op. -/
theorem fillDensity_eq_self (S : Table) (h : ∀ r ∈ S, r.density ≠ none) :
    fillDensity S = S := by
  unfold fillDensity
  conv_rhs => rw [← List.map_id S]
  apply List.map_congr_left
  intro r hr
  cases hd : r.density
  · exact absurd hd (h r hr)
  · simp [backfillRec, hd]

theorem updPops_density (t0 : Table) (r : Record) :
    (updPops t0 r).density = r.density := by
  unfold updPops
  split <;> rfl

theorem updDensity_density (t0 : Table) (r : Record) :
    (updDensity t0 r).density
      = if isMAR r
          then some (totalOf (pop .y2022) t0 / totalOf (fun s => s.area) t0)
          else r.density := by
  unfold updDensity
  split <;> simp_all

/-- After backfill, log derivation and the merge, every density is
present. -/
theorem midTable_density_ne_none (lg : ℚ → ℚ) (t : Table) :
    ∀ r ∈ mergeTerritories (logStep lg (fillDensity t)), r.density ≠ none := by
  intro r hr
  unfold mergeTerritories dropESH at hr
  have hr1 := (List.mem_filter.mp hr).1
  obtain ⟨x1, hx1, hx1r⟩ := List.mem_map.mp hr1
  obtain ⟨x0, hx0, hx0x⟩ := List.mem_map.mp hx1
  subst hx1r
  subst hx0x
  rw [updDensity_density]
  by_cases h : isMAR (updPops (logStep lg (fillDensity t)) x0) = true
  · simp [h]
  · have h' := eq_false_of_ne_true h
    simp only [h', if_false, Bool.false_eq_true]
    rw [updPops_density]
    unfold logStep at hx0
    obtain ⟨x00, hx00, hx00x⟩ := List.mem_map.mp hx0
    subst hx00x
    simp only
    unfold fillDensity at hx00
    obtain ⟨x000, _, hxx⟩ := List.mem_map.mp hx00
    subst hxx
    exact backfillRec_density_ne_none x000

/-- Dropping the Log_Density column commutes the log derivation away. -/
theorem stripLog_map_logStep (lg : ℚ → ℚ) (S : Table) :
    (logStep lg S).map stripLog = S.map stripLog := by
  unfold logStep
  rw [List.map_map]
  apply List.map_congr_left
  intro r _
  obtain ⟨c1, c2, c3, q1, q2, q3, q4, q5, q6, q7, q8, ar, de, ld⟩ := r
  rfl

/-- The log derivation changes no population column, hence no world
total. -/
theorem worldTotal_logStep (y : Year) (lg : ℚ → ℚ) (S : Table) :
    worldTotal y (logStep lg S) = worldTotal y S := by
  unfold worldTotal logStep
  rw [List.map_map]
  congr 1

/-- Evaluation of the pandas pipeline at the concrete merge scenario:
the final MAR row keeps a Log_Density computed from the stale pre-merge
density 37000000 / 446550. -/
theorem pipeline1_Tmar_eval :
    pipeline1 lgId Tmar =
      [mkRec "Morocco" "Africa" "MAR" 15076000 19116000 24178000 28270000
        32413000 34491000 36556000 37600000 712550
        (some (37600000 / 712550)) (some (37000000 / 446550 + 1))] := by
  simp [pipeline1, fillDensity, backfillRec, logStep, mergeTerritories, dropESH,
    updPops, updDensity, totalOf, moroccoMask, isMAR, isESH, pop, lgId, Tmar,
    rMar, rEsh, mkRec, List.filter_cons]
  norm_num

/-- At the concrete merge scenario the summed masked area is nonzero, so
the polars scalar division succeeds. -/
theorem Tmar_totalArea_ne_zero :
    totalOf (fun s => s.area) (logStep lgId (fillDensity Tmar)) ≠ 0 := by
  simp [totalOf, moroccoMask, isMAR, isESH, logStep, fillDensity, backfillRec,
    Tmar, rMar, rEsh, mkRec, List.filter_cons]
  norm_num

/-- Evaluation of the polars pipeline at the concrete merge scenario:
the merge succeeds and the final MAR row carries the re-derived
Log_Density of the merged density 37600000 / 712550. -/
theorem pipeline2_Tmar_eval :
    pipeline2 lgId Tmar =
      some [mkRec "Morocco" "Africa" "MAR" 15076000 19116000 24178000 28270000
        32413000 34491000 36556000 37600000 712550
        (some (37600000 / 712550)) (some (37600000 / 712550 + 1))] := by
  unfold pipeline2 mergeTerritories2
  rw [if_neg Tmar_totalArea_ne_zero]
  simp [fillDensity, backfillRec, logStep, dropESH,
    setP2022, setP2020, setP2015, setP2010, setP2000, setP1990, setP1980, setP1970,
    setArea, setDensity, totalOf, moroccoMask, isMAR, isESH, pop, lgId, Tmar,
    rMar, rEsh, mkRec, List.filter_cons]
  norm_num

/-- Claim C7, amended: whenever the polars merge succeeds, that is when
the summed masked area of the backfilled and log-derived table is
nonzero, the polars pipeline returns exactly the pandas pipeline output
with Log_Density re-derived, so the two variants agree on every column
except Log_Density (equal after dropping that column) and in particular
on the world totals of every snapshot year; when the summed masked area
is zero (for instance, no MAR and no ESH row) the polars variant aborts
with ZeroDivisionError while the pandas variant completes. -/
theorem pipelines_agree (lg : ℚ → ℚ) (t : Table) :
    (totalOf (fun s => s.area) (logStep lg (fillDensity t)) = 0 →
      pipeline2 lg t = none)
    ∧ (totalOf (fun s => s.area) (logStep lg (fillDensity t)) ≠ 0 →
      pipeline2 lg t = some (logStep lg (pipeline1 lg t))
      ∧ (pipeline1 lg t).map stripLog
          = (logStep lg (pipeline1 lg t)).map stripLog
      ∧ ∀ y : Year, worldTotal y (pipeline1 lg t)
          = worldTotal y (logStep lg (pipeline1 lg t))) := by
  have hp1 : pipeline1 lg t = mergeTerritories (logStep lg (fillDensity t)) := by
    unfold pipeline1
    exact fillDensity_eq_self _ (midTable_density_ne_none lg t)
  constructor
  · intro hz
    unfold pipeline2 mergeTerritories2
    rw [if_pos hz]
    rfl
  · intro hz
    refine ⟨?_, (stripLog_map_logStep lg (pipeline1 lg t)).symm,
      fun y => (worldTotal_logStep y lg (pipeline1 lg t)).symm⟩
    unfold pipeline2
    rw [mergeTerritories2_eq _ hz, hp1]
    rfl

/-- Witness for the amended C7: at the concrete merge scenario the polars
pipeline succeeds and equals the pandas pipeline output with Log_Density
re-derived; at the concrete table with no MAR and no ESH row the summed
masked area is zero and the polars pipeline aborts. -/
theorem pipelines_agree_witness :
    pipeline2 lgId Tmar = some (logStep lgId (pipeline1 lgId Tmar))
    ∧ pipeline2 lgId Tplain = none := by
  constructor
  · exact ((pipelines_agree lgId Tmar).2 Tmar_totalArea_ne_zero).1
  · refine (pipelines_agree lgId Tplain).1 ?_
    simp [totalOf, moroccoMask, isMAR, isESH, logStep, fillDensity, backfillRec,
      Tplain, rAla, rBrn, rTcd, mkRec, List.filter_cons]

/-- Counterexample to claim C7 as stated: on the concrete two-row merge
scenario the two variants produce different final tables, because the
pandas variant does not re-derive Log_Density after the merge. -/
theorem pipelines_differ_counterexample :
    some (pipeline1 lgId Tmar) ≠ pipeline2 lgId Tmar := by
  rw [pipeline1_Tmar_eval, pipeline2_Tmar_eval]
  simp only [mkRec, ne_eq, Option.some.injEq, List.cons.injEq, and_true,
    Record.mk.injEq, true_and, not_and]
  intro hcontra
  norm_num at hcontra

/-- Claim C2 as evaluated on the pandas variant at the concrete merge
scenario: after the pipeline completes, the absorbing MAR row has the
merged density 37600000 / 712550 but a Log_Density still computed from
the stale pre-merge density 37000000 / 446550, and the two densities
differ; the polars variant re-derives and yields the log of the merged
density. -/
theorem pipeline1_stale_logDensity :
    pipeline1 lgId Tmar =
      [mkRec "Morocco" "Africa" "MAR" 15076000 19116000 24178000 28270000
        32413000 34491000 36556000 37600000 712550
        (some (37600000 / 712550)) (some (37000000 / 446550 + 1))]
    ∧ pipeline2 lgId Tmar =
      some [mkRec "Morocco" "Africa" "MAR" 15076000 19116000 24178000 28270000
        32413000 34491000 36556000 37600000 712550
        (some (37600000 / 712550)) (some (37600000 / 712550 + 1))]
    ∧ (37000000 / 446550 : ℚ) + 1 ≠ 37600000 / 712550 + 1 :=
  ⟨pipeline1_Tmar_eval, pipeline2_Tmar_eval, by norm_num⟩

end PopGeo

namespace PopGeo

/-! ## Claim C5 -/

/-- Summing the per-key group sums over any duplicate-free key list that
covers every row gives the whole-table column sum. -/
theorem sum_byContinent_keys (y : Year) :
    ∀ (ks : List String) (t : Table), ks.Nodup → (∀ r ∈ t, r.continent ∈ ks) →
      (ks.map fun c => byContinent y c t).sum = worldTotal y t := by
  intro ks
  induction ks with
  | nil =>
    intro t _ hcov
    have ht : t = [] := by
      cases t with
      | nil => rfl
      | cons a t => exact absurd (hcov a (List.mem_cons_self a t)) (List.not_mem_nil _)
    subst ht
    simp [worldTotal]
  | cons c ks ih =>
    intro t hnd hcov
    have hnd' : ks.Nodup := (List.nodup_cons.mp hnd).2
    have hcnot : c ∉ ks := (List.nodup_cons.mp hnd).1
    have hcov' : ∀ r ∈ t.filter fun r => !(decide (r.continent = c)),
        r.continent ∈ ks := by
      intro r hr
      have hm := List.mem_filter.mp hr
      have h1 := hcov r hm.1
      have h2 : ¬(r.continent = c) := by simpa using hm.2
      cases List.mem_cons.mp h1 with
      | inl h => exact absurd h h2
      | inr h => exact h
    have hih := ih (t.filter fun r => !(decide (r.continent = c))) hnd' hcov'
    have hkeep : ∀ c' ∈ ks,
        byContinent y c' (t.filter fun r => !(decide (r.continent = c)))
          = byContinent y c' t := by
      intro c' hc'
      have hne : c' ≠ c := fun hh => hcnot (hh ▸ hc')
      unfold byContinent
      rw [List.filter_filter]
      have hfc : List.filter (fun a => decide (a.continent = c') && !(decide (a.continent = c))) t
          = List.filter (fun r => decide (r.continent = c')) t := by
        apply List.filter_congr
        intro r _
        by_cases hrc : r.continent = c'
        · simp [hrc, hne]
        · simp [hrc]
      rw [hfc]
    have hmapeq : (ks.map fun c' => byContinent y c' t).sum
        = (ks.map fun c' =>
            byContinent y c' (t.filter fun r => !(decide (r.continent = c)))).sum := by
      congr 1
      apply List.map_congr_left
      intro c' hc'
      exact (hkeep c' hc').symm
    have hsplit := sum_map_filter_add_not (fun r => decide (r.continent = c)) (pop y) t
    simp only [List.map_cons, List.sum_cons]
    rw [hmapeq, hih]
    unfold byContinent worldTotal
    unfold worldTotal at hsplit
    exact hsplit

/-- Claim C5: the per-continent 2022 sums (for any snapshot year) add up
to the world total of that year. -/
theorem byContinent_sums_to_worldTotal (y : Year) (t : Table) :
    ((continents t).map fun c => byContinent y c t).sum = worldTotal y t := by
  apply sum_byContinent_keys
  · exact List.nodup_dedup _
  · intro r hr
    unfold continents
    exact List.mem_dedup.mpr (List.mem_map_of_mem _ hr)

/-! ## Claim C10 -/

/-- Claim C10: the merge is frame-preserving outside its two targets.
The merged table is exactly the original table with the ESH rows removed
and each surviving row individually rewritten in place (so the relative
order of survivors is preserved); a row that codes neither MAR nor ESH
is rewritten to itself; and the rewriting never touches the country,
continent, code, or Log_Density columns of any row. -/
theorem mergeTerritories_frame (t : Table) :
    mergeTerritories t
      = (t.filter fun r => !(isESH r)).map (fun r => updDensity t (updPops t r))
    ∧ (∀ r ∈ t, isMAR r = false → isESH r = false →
        updDensity t (updPops t r) = r)
    ∧ ∀ r ∈ t,
        (updDensity t (updPops t r)).country = r.country
        ∧ (updDensity t (updPops t r)).continent = r.continent
        ∧ (updDensity t (updPops t r)).cca3 = r.cca3
        ∧ (updDensity t (updPops t r)).logDensity = r.logDensity := by
  refine ⟨?_, ?_, ?_⟩
  · unfold mergeTerritories dropESH
    rw [List.map_map, List.filter_map]
    congr 1
    apply List.filter_congr
    intro r _
    simp [Function.comp_apply, isESH, mergeUpd_cca3 t r]
  · intro r _ hM hE
    simp [updPops, updDensity, isMAR] at hM ⊢
    simp [hM]
  · intro r _
    by_cases h : r.cca3 = "MAR" <;>
      simp [updPops, updDensity, isMAR, h]

/-- Witness for C10 on a table with no merge targets: the only rows are
neither MAR nor ESH, so each is rewritten to itself with all
identification columns untouched. -/
theorem mergeTerritories_frame_witness :
    updDensity Tplain (updPops Tplain rAla) = rAla
    ∧ (updDensity Tplain (updPops Tplain rAla)).country = rAla.country
    ∧ (updDensity Tplain (updPops Tplain rAla)).logDensity = rAla.logDensity := by
  have h := mergeTerritories_frame Tplain
  have hmem : rAla ∈ Tplain := by simp [Tplain]
  exact ⟨h.2.1 rAla hmem (by decide) (by decide),
    (h.2.2 rAla hmem).1, (h.2.2 rAla hmem).2.2.2⟩

end PopGeo
